import Mathlib

namespace Libconfig

/-- Signed integer widths supported by the coercer (reflect.Int, Int8 ... Int64).
The default width models a 64-bit platform. -/
inductive IntK where
  | iDefault
  | i8
  | i16
  | i32
  | i64
deriving DecidableEq, Repr

/-- Unsigned integer widths (reflect.Uint, Uint8 ... Uint64). -/
inductive UintK where
  | uDefault
  | u8
  | u16
  | u32
  | u64
deriving DecidableEq, Repr

/-- Floating point widths (reflect.Float32, Float64). -/
inductive FloatK where
  | f32
  | f64
deriving DecidableEq, Repr

def IntK.bits : IntK → Nat
  | .iDefault => 64
  | .i8 => 8
  | .i16 => 16
  | .i32 => 32
  | .i64 => 64

def UintK.bits : UintK → Nat
  | .uDefault => 64
  | .u8 => 8
  | .u16 => 16
  | .u32 => 32
  | .u64 => 64

/-- Semantic kind of a field, mirroring the reflect.Kind values this library
inspects. -/
inductive Kind where
  | kString
  | kBool
  | kInterface
  | kSlice
  | kPtr
  | kStruct
  | kInt (k : IntK)
  | kUint (k : UintK)
  | kFloat (k : FloatK)
deriving DecidableEq, Repr

mutual
/-- Static type of a field, as the traversal engine sees it through reflection.
A struct type carries, per field, the field name, the raw tag string under the
parser tag key (none when the field carries no tag), and the field type. -/
inductive Ty where
  | tString
  | tBool
  | tIface
  | tInt (k : IntK)
  | tUint (k : UintK)
  | tFloat (k : FloatK)
  | tSlice (elem : Ty)
  | tPtr (elem : Ty)
  | tStruct (fields : TyFields)
deriving DecidableEq, Repr

/-- Fields of a struct type: name, raw tag value, type. -/
inductive TyFields where
  | nil
  | cons (name : String) (tag : Option String) (ty : Ty) (rest : TyFields)
deriving DecidableEq, Repr
end

mutual
/-- Runtime data held by a reflect.Value; the static type lives in Ty and is
passed alongside. A pointer holds either nothing (nil) or its pointee. -/
inductive Value where
  | vString (s : String)
  | vBool (b : Bool)
  | vIface
  | vInt (n : Int)
  | vUint (n : Nat)
  | vFloat (q : Rat)
  | vSlice (elems : Values)
  | vPtr (contents : Option Value)
  | vStruct (fields : Values)

/-- List of field values of a struct (or elements of a slice). -/
inductive Values where
  | nil
  | cons (v : Value) (rest : Values)
end

def Ty.kind : Ty → Kind
  | .tString => .kString
  | .tBool => .kBool
  | .tIface => .kInterface
  | .tInt k => .kInt k
  | .tUint k => .kUint k
  | .tFloat k => .kFloat k
  | .tSlice _ => .kSlice
  | .tPtr _ => .kPtr
  | .tStruct _ => .kStruct

mutual
/-- Zero value of a type, as produced by reflect.New: empty string, zero
numbers, nil pointer, nil slice, and a struct of zero values. -/
def zeroVal : Ty → Value
  | .tString => .vString ""
  | .tBool => .vBool false
  | .tIface => .vIface
  | .tInt _ => .vInt 0
  | .tUint _ => .vUint 0
  | .tFloat _ => .vFloat 0
  | .tSlice _ => .vSlice .nil
  | .tPtr _ => .vPtr none
  | .tStruct tfs => .vStruct (zeroVals tfs)

def zeroVals : TyFields → Values
  | .nil => .nil
  | .cons _ _ ty rest => .cons (zeroVal ty) (zeroVals rest)
end

/-! ### Byte and string conversions

Go strings are byte sequences; the decoded value handed to the scalar coercer
is a byte slice. Strings here are modelled as Lean strings (valid UTF-8, which
covers every behavior the claims mention), and byte sequences as lists of
byte values. -/

/-- UTF-8 encoding of one character, as a list of byte values. -/
def encodeChar (c : Char) : List Nat :=
  let n := c.toNat
  if n < 128 then [n]
  else if n < 2048 then [192 + n / 64, 128 + n % 64]
  else if n < 65536 then [224 + n / 4096, 128 + n / 64 % 64, 128 + n % 64]
  else [240 + n / 262144, 128 + n / 4096 % 64, 128 + n / 64 % 64, 128 + n % 64]

/-- Bytes of a string (UTF-8), modelling the Go conversion from string to a
byte slice. -/
def stringToBytes (s : String) : List Nat :=
  (s.data.map encodeChar).flatten

def isCont (b : Nat) : Bool := 128 ≤ b && b < 192

/-- UTF-8 decoding of a byte sequence. The Go conversion from bytes to string
keeps raw bytes; this model replaces malformed sequences with U+FFFD, and
agrees with Go on all valid UTF-8 input (the only input the claims exercise). -/
def utf8Decode : List Nat → List Char
  | [] => []
  | b :: rest =>
    if b < 128 then Char.ofNat b :: utf8Decode rest
    else if 194 ≤ b && b ≤ 223 then
      match rest with
      | b2 :: r2 =>
        (if isCont b2 then Char.ofNat ((b - 192) * 64 + (b2 - 128)) else Char.ofNat 65533)
          :: utf8Decode r2
      | [] => [Char.ofNat 65533]
    else if 224 ≤ b && b ≤ 239 then
      match rest with
      | b2 :: b3 :: r3 =>
        (if isCont b2 && isCont b3 then
          Char.ofNat ((b - 224) * 4096 + (b2 - 128) * 64 + (b3 - 128))
        else Char.ofNat 65533) :: utf8Decode r3
      | _ => [Char.ofNat 65533]
    else if 240 ≤ b && b ≤ 244 then
      match rest with
      | b2 :: b3 :: b4 :: r4 =>
        (if isCont b2 && isCont b3 && isCont b4 then
          Char.ofNat ((b - 240) * 262144 + (b2 - 128) * 4096 + (b3 - 128) * 64 + (b4 - 128))
        else Char.ofNat 65533) :: utf8Decode r4
      | _ => [Char.ofNat 65533]
    else Char.ofNat 65533 :: utf8Decode rest

def bytesToString (bs : List Nat) : String :=
  String.mk (utf8Decode bs)

/-! ### Numeric and boolean text parsing (strconv)

These model the standard library functions the coercer calls: ParseInt with
base 10 and bit size 64, ParseUint, ParseFloat with bit size 64, ParseBool.
A parse outcome of none models a non-nil error from strconv (syntax or range). -/

def digitVal (c : Char) : Option Nat :=
  if '0' ≤ c ∧ c ≤ '9' then some (c.toNat - 48) else none

/-- Base-10 digits to a number; none when empty or when any character is not a
digit. -/
def digitsToNat (cs : List Char) : Option Nat :=
  if cs.isEmpty then none
  else cs.foldl (fun acc c =>
    match acc, digitVal c with
    | some a, some d => some (a * 10 + d)
    | _, _ => none) (some 0)

/-- Modelled from the spec: strconv.ParseInt with base 10 and bitSize 64, an
external standard-library collaborator. An optional sign followed by decimal
digits; values outside the signed 64-bit range report a range error, which the
caller treats the same as a syntax error. -/
def parseInt64 (s : String) : Option Int :=
  let p : Bool × List Char :=
    match s.data with
    | '-' :: rest => (true, rest)
    | '+' :: rest => (false, rest)
    | cs => (false, cs)
  match digitsToNat p.2 with
  | none => none
  | some m =>
    let n : Int := if p.1 then -(m : Int) else (m : Int)
    if n < -(2 ^ 63 : Int) ∨ (2 ^ 63 : Int) - 1 < n then none else some n

/-- Modelled from the spec: strconv.ParseUint with base 10 and bitSize 64.
No sign is accepted. -/
def parseUint64 (s : String) : Option Nat :=
  match digitsToNat s.data with
  | none => none
  | some m => if (2 ^ 64 : Nat) - 1 < m then none else some m

/-- Modelled from the spec: strconv.ParseBool, accepting the canonical boolean
text forms. -/
def parseBoolGo (s : String) : Option Bool :=
  if s = "1" ∨ s = "t" ∨ s = "T" ∨ s = "true" ∨ s = "TRUE" ∨ s = "True" then some true
  else if s = "0" ∨ s = "f" ∨ s = "F" ∨ s = "false" ∨ s = "FALSE" ∨ s = "False" then some false
  else none

def takeDigits : List Char → List Nat × List Char
  | [] => ([], [])
  | c :: rest =>
    match digitVal c with
    | some d =>
      let p := takeDigits rest
      (d :: p.1, p.2)
    | none => ([], c :: rest)

def digitsVal (ds : List Nat) : Nat := ds.foldl (fun a d => a * 10 + d) 0

/-- Largest finite 64-bit float, as an exact rational. -/
def maxFloat64 : Rat := (2 ^ 53 - 1) * 2 ^ 971

/-- Largest finite 32-bit float, as an exact rational. -/
def maxFloat32 : Rat := (2 ^ 24 - 1) * 2 ^ 104

/-- Modelled from the spec: strconv.ParseFloat with bitSize 64, an external
standard-library collaborator. Decimal text (optional sign, digits with an
optional fraction and exponent) is parsed exactly into a rational; IEEE
rounding, hexadecimal floats and the Inf and NaN spellings are abstracted
away, and values beyond the finite 64-bit range report a range error. No
claim depends on the abstracted cases. -/
def parseFloatModel (s : String) : Option Rat :=
  let p : Bool × List Char :=
    match s.data with
    | '-' :: rest => (true, rest)
    | '+' :: rest => (false, rest)
    | cs => (false, cs)
  let ip := takeDigits p.2
  let fr : List Nat × List Char :=
    match ip.2 with
    | '.' :: rest => takeDigits rest
    | _ => ([], ip.2)
  if ip.1.isEmpty ∧ fr.1.isEmpty then none
  else
    let ex : Option Int × List Char :=
      match fr.2 with
      | 'e' :: rest => parseExp rest
      | 'E' :: rest => parseExp rest
      | other => (some 0, other)
    match ex.1, ex.2 with
    | some e, [] =>
      let mant : Rat := digitsVal (ip.1 ++ fr.1)
      let expo : Int := e - fr.1.length
      let mag : Rat :=
        if 0 ≤ expo then mant * (10 : Rat) ^ expo.toNat
        else mant / (10 : Rat) ^ (-expo).toNat
      let q : Rat := if p.1 then -mag else mag
      if maxFloat64 < |q| then none else some q
    | _, _ => none
where
  parseExp (cs : List Char) : Option Int × List Char :=
    let p : Bool × List Char :=
      match cs with
      | '-' :: rest => (true, rest)
      | '+' :: rest => (false, rest)
      | other => (false, other)
    let d := takeDigits p.2
    if d.1.isEmpty then (none, cs)
    else (some (if p.1 then -(digitsVal d.1 : Int) else (digitsVal d.1 : Int)), d.2)

/-! ### Base64 decoding (encoding/base64 StdEncoding) -/

def b64Val (c : Char) : Option Nat :=
  if 'A' ≤ c ∧ c ≤ 'Z' then some (c.toNat - 65)
  else if 'a' ≤ c ∧ c ≤ 'z' then some (c.toNat - 97 + 26)
  else if '0' ≤ c ∧ c ≤ '9' then some (c.toNat - 48 + 52)
  else if c = '+' then some 62
  else if c = '/' then some 63
  else none

/-- Decode groups of four base64 symbols; the final group may end in one or
two padding symbols. Any other shape is corrupt input. -/
def b64Groups : List Char → Option (List Nat)
  | [] => some []
  | c1 :: c2 :: c3 :: c4 :: rest =>
    match b64Val c1, b64Val c2 with
    | some a, some b =>
      if c3 = '=' then
        if c4 = '=' ∧ rest = [] then some [a * 4 + b / 16]
        else none
      else
        match b64Val c3 with
        | some c =>
          if c4 = '=' then
            if rest = [] then some [a * 4 + b / 16, b % 16 * 16 + c / 4]
            else none
          else
            match b64Val c4 with
            | some d =>
              match b64Groups rest with
              | some tl => some ((a * 4 + b / 16) :: (b % 16 * 16 + c / 4) :: (c % 4 * 64 + d) :: tl)
              | none => none
            | none => none
        | none => none
    | _, _ => none
  | _ => none

/-- Modelled from the spec: base64.StdEncoding.DecodeString, an external
standard-library collaborator implementing the standard 64-symbol text-safe
binary encoding. Newline bytes are ignored, as in the standard library. -/
def base64Decode (s : String) : Option (List Nat) :=
  b64Groups (s.data.filter (fun c => c != '\r' && c != '\n'))


/-! ### Errors

One constructor per error type of the library. Wrapped causes (the Because
field of some errors) are dropped from the model; the tests of the library
likewise compare errors with the cause cleared. The InvalidConfigType error
carries the kind of the offending type. -/

inductive Err where
  | cannotParseEnv (kind : Kind) (key value : String)
  | cannotSetKind (kind : Kind)
  | decodeFailure (key value typ : String)
  | invalidConfigType (kind : Kind)
  | invalidTagOption (tag badOption : String)
  | missingNameTag (tag : String)
  | overflow (kind : Kind) (key value : String)
  | varNotFound (key : String)
  | nestedTags (field key : String)
deriving DecidableEq, Repr

/-! ### Tag metadata extraction (parseTag) -/

structure tagData where
  Tagged : Bool := false
  Name : String := ""
  Optional : Bool := false
  Base64 : Bool := false
  JSON : Bool := false
deriving DecidableEq, Repr

def splitCommaAux : List Char → List Char → List String
  | [], acc => [String.mk acc.reverse]
  | c :: rest, acc =>
    if c = ',' then String.mk acc.reverse :: splitCommaAux rest []
    else splitCommaAux rest (c :: acc)

/-- Split on every comma, modelling strings.Split with a comma separator: the
empty string yields one empty token, adjacent commas yield empty tokens. -/
def splitComma (s : String) : List String :=
  splitCommaAux s.data []


/-- Loop over the tokens after the name, setting modifier flags; an
unrecognized token aborts with InvalidTagOption carrying the full raw tag
and the offending token. -/
def parseTagLoop (tags : String) : List String → tagData → Except Err tagData
  | [], r => .ok r
  | t :: rest, r =>
    if t = "base64" then parseTagLoop tags rest { r with Base64 := true }
    else if t = "json" then parseTagLoop tags rest { r with JSON := true }
    else if t = "optional" then parseTagLoop tags rest { r with Optional := true }
    else .error (.invalidTagOption tags t)

/-- Tag metadata extraction. The argument is the raw value of the struct field
tag under the parser tag key, or none when the lookup of that key fails. -/
def parseTag (t : Option String) : Except Err tagData :=
  match t with
  | none => .ok {}
  | some tags =>
    let tagTokens := splitComma tags
    let name := tagTokens.headD ""
    if name.length = 0 then .error (.missingNameTag tags)
    else parseTagLoop tags (tagTokens.drop 1) { Tagged := true, Name := name }


/-! ### Scalar coercion (setValue and helpers) -/

def overflowInt (k : IntK) (n : Int) : Bool :=
  decide (n < -(2 ^ (k.bits - 1) : Int)) || decide ((2 ^ (k.bits - 1) : Int) - 1 < n)

def overflowUint (k : UintK) (n : Nat) : Bool :=
  decide ((2 ^ k.bits : Nat) - 1 < n)

def overflowFloat (k : FloatK) (q : Rat) : Bool :=
  match k with
  | .f64 => false
  | .f32 => decide (maxFloat32 < |q|)

/-- Parse base-10 signed text at maximum width, then check overflow against
the declared width of the field. -/
def setValueToInt (k : IntK) (key value : String) : Except Err Value :=
  match parseInt64 value with
  | none => .error (.cannotParseEnv (.kInt k) key value)
  | some n =>
    if overflowInt k n then .error (.overflow (.kInt k) key value)
    else .ok (.vInt n)

def setValueToUint (k : UintK) (key value : String) : Except Err Value :=
  match parseUint64 value with
  | none => .error (.cannotParseEnv (.kUint k) key value)
  | some n =>
    if overflowUint k n then .error (.overflow (.kUint k) key value)
    else .ok (.vUint n)

def setValueToFloat (k : FloatK) (key value : String) : Except Err Value :=
  match parseFloatModel value with
  | none => .error (.cannotParseEnv (.kFloat k) key value)
  | some q =>
    if overflowFloat k q then .error (.overflow (.kFloat k) key value)
    else .ok (.vFloat q)

def setValueToBool (key value : String) : Except Err Value :=
  match parseBoolGo value with
  | none => .error (.cannotParseEnv .kBool key value)
  | some b => .ok (.vBool b)

def bytesToValues : List Nat → Values
  | [] => .nil
  | b :: rest => .cons (.vUint b) (bytesToValues rest)

/-- Coerce the decoded bytes into a field of the given type: byte slices and
strings verbatim, numeric and boolean kinds through the strconv parsers, and
every other kind fails with CannotSetKind. -/
def setValue (t : Ty) (key : String) (value : List Nat) : Except Err Value :=
  match t with
  | .tSlice e =>
    if e.kind = .kUint .u8 then .ok (.vSlice (bytesToValues value))
    else .error (.cannotSetKind .kSlice)
  | .tString => .ok (.vString (bytesToString value))
  | .tInt k => setValueToInt k key (bytesToString value)
  | .tUint k => setValueToUint k key (bytesToString value)
  | .tFloat k => setValueToFloat k key (bytesToString value)
  | .tBool => setValueToBool key (bytesToString value)
  | other => .error (.cannotSetKind other.kind)


/-! ### Field resolution (retrieve)

The lookup function is a parameter, as in the source. The structured-text
deserializer (encoding/json Unmarshal) is an external standard-library
collaborator; it is passed as a function from target type, decoded bytes and
current target value to an optional new target value, none meaning a decode
error. Storage allocations (reflect.New calls) are counted, and the names
passed to the lookup function are recorded, so that frame and temporal claims
are observable. -/

/-- Type of the modelled structured-text deserializer. -/
def Unmarshal : Type := Ty → List Nat → Value → Option Value

/-- Result of resolving one field: error if any, the new field value, the
number of storage allocations performed, and the lookup calls made. -/
structure RetRes where
  err : Option Err
  val : Value
  allocs : Nat
  lookups : List String

/-- Target of a pointer whose pointee type is e, together with the number of
allocations needed to make it concrete: the existing pointee when the pointer
is non-nil, otherwise a freshly allocated zero value. -/
def ptrInit (e : Ty) (v : Value) : Value × Nat :=
  match v with
  | .vPtr (some c) => (c, 0)
  | _ => (zeroVal e, 1)

/-- Structured decode stage: ensure a pointer target has storage (allocating
when nil), then deserialize the decoded bytes into the target through the
deserializer; failure is a DecodeFailure of type json and leaves the model
target unchanged apart from the allocation. -/
def jsonStage (uf : Unmarshal) (t : Ty) (v : Value) (name raw : String) (bs : List Nat) : RetRes :=
  match t with
  | .tPtr e =>
    let p : Value × Nat := ptrInit e v
    match uf e bs p.1 with
    | some w => ⟨none, .vPtr (some w), p.2, []⟩
    | none => ⟨some (.decodeFailure name raw "json"), .vPtr (some p.1), p.2, []⟩
  | _ =>
    match uf t bs v with
    | some w => ⟨none, w, 0, []⟩
    | none => ⟨some (.decodeFailure name raw "json"), v, 0, []⟩

/-- Scalar stage: a pointer target is always given freshly allocated storage
first, then the scalar coercer writes into the target. -/
def scalarStage (t : Ty) (v : Value) (name : String) (bs : List Nat) : RetRes :=
  match t with
  | .tPtr e =>
    match setValue e name bs with
    | .ok w => ⟨none, .vPtr (some w), 1, []⟩
    | .error err => ⟨some err, .vPtr (some (zeroVal e)), 1, []⟩
  | _ =>
    match setValue t name bs with
    | .ok w => ⟨none, w, 0, []⟩
    | .error err => ⟨some err, v, 0, []⟩

/-- Resolve one tagged field: look the name up, base64-decode when requested,
then either structured-decode or scalar-coerce. -/
def retrieve (lf : String → Option String) (uf : Unmarshal) (t : Ty) (v : Value)
    (tg : tagData) : RetRes :=
  match lf tg.Name with
  | none =>
    if !tg.Optional then ⟨some (.varNotFound tg.Name), v, 0, [tg.Name]⟩
    else ⟨none, v, 0, [tg.Name]⟩
  | some value =>
    let dec : Except Err (List Nat) :=
      if tg.Base64 then
        match base64Decode value with
        | some bs => .ok bs
        | none => .error (.decodeFailure tg.Name value "base64")
      else .ok (stringToBytes value)
    match dec with
    | .error e => ⟨some e, v, 0, [tg.Name]⟩
    | .ok bs =>
      if tg.JSON then
        let r := jsonStage uf t v tg.Name value bs
        ⟨r.err, r.val, r.allocs, [tg.Name]⟩
      else
        let r := scalarStage t v tg.Name bs
        ⟨r.err, r.val, r.allocs, [tg.Name]⟩

/-! ### Structural traversal (parse and Get) -/

/-- Result of traversing the fields of one struct. -/
structure ParseRes where
  found : Bool
  err : Option Err
  vals : Values
  allocs : Nat
  lookups : List String

/-- Result of the struct-or-pointer-to-struct step for a single field. -/
structure FieldRes where
  found : Bool
  err : Option Err
  val : Value
  allocs : Nat
  lookups : List String

def structVals : Value → Values
  | .vStruct vs => vs
  | _ => .nil

/-- Head value of a field list, falling back to the zero value of the field
type; the fallback is never reached when the values match the struct shape. -/
def headVal (ty : Ty) : Values → Value
  | .cons v _ => v
  | .nil => zeroVal ty

def tailVals : Values → Values
  | .cons _ rest => rest
  | .nil => .nil

mutual
/-- Traversal of the fields of one struct, in declaration order: extract tag
metadata, resolve tagged fields, then recurse into struct and
pointer-to-struct fields (allocating nil pointers first), enforcing the
nested-tag rule before considering sub-traversal errors. The first error
aborts, keeping mutations already made. -/
def parseFields (lf : String → Option String) (uf : Unmarshal) :
    TyFields → Values → ParseRes
  | .nil, vs => ⟨false, none, vs, 0, []⟩
  | .cons name tagStr ty rest, vs =>
    let v := headVal ty vs
    let tl := tailVals vs
    match parseTag tagStr with
    | .error e => ⟨false, some e, vs, 0, []⟩
    | .ok tg =>
      let r1 : RetRes := if tg.Tagged then retrieve lf uf ty v tg else ⟨none, v, 0, []⟩
      match r1.err with
      | some e => ⟨tg.Tagged, some e, .cons r1.val tl, r1.allocs, r1.lookups⟩
      | none =>
        let r2 := parseField lf uf ty r1.val
        if tg.Tagged && r2.found then
          ⟨true, some (.nestedTags name tg.Name), .cons r2.val tl,
            r1.allocs + r2.allocs, r1.lookups ++ r2.lookups⟩
        else
          match r2.err with
          | some e => ⟨tg.Tagged, some e, .cons r2.val tl,
              r1.allocs + r2.allocs, r1.lookups ++ r2.lookups⟩
          | none =>
            let r3 := parseFields lf uf rest tl
            ⟨tg.Tagged || r3.found, r3.err, .cons r2.val r3.vals,
              r1.allocs + r2.allocs + r3.allocs, r1.lookups ++ r2.lookups ++ r3.lookups⟩

/-- Recursion step for one field: struct fields are traversed in place, a
pointer-to-struct field is traversed through the pointee, allocating a zero
struct first when the pointer is nil; any other field type is left alone. -/
def parseField (lf : String → Option String) (uf : Unmarshal) :
    Ty → Value → FieldRes
  | .tStruct tfs, v =>
    let r := parseFields lf uf tfs (structVals v)
    ⟨r.found, r.err, .vStruct r.vals, r.allocs, r.lookups⟩
  | .tPtr (.tStruct tfs), v =>
    let p : Value × Nat := ptrInit (.tStruct tfs) v
    let r := parseFields lf uf tfs (structVals p.1)
    ⟨r.found, r.err, .vPtr (some (.vStruct r.vals)), p.2 + r.allocs, r.lookups⟩
  | _, v => ⟨false, none, v, 0, []⟩
end

/-- Entry point: the argument must be a pointer to a struct, otherwise the
call fails with InvalidConfigType; the traversal runs on the pointee. A nil
top-level pointer is outside the model (the source would dereference nil). -/
def GetModel (lf : String → Option String) (uf : Unmarshal) (t : Ty) (v : Value) :
    Option Err × Value :=
  match t with
  | .tPtr (.tStruct tfs) =>
    let inner : Value :=
      match v with
      | .vPtr (some c) => c
      | _ => zeroVal (.tStruct tfs)
    let r := parseFields lf uf tfs (structVals inner)
    (r.err, .vPtr (some (.vStruct r.vals)))
  | other => (some (.invalidConfigType other.kind), v)

/-- Modelled from the spec: a minimal instance of the external structured-text
deserializer, used only to settle closed statements. It accepts exactly the
empty-object document, which deserializes into any struct target without
changing any field, and reports a decode error on every other document. This
mirrors the two payloads the repository tests exercise for tagged struct
fields: the empty object succeeds and the text i-am-not-json fails. -/
def jsonUnmarshalModel : Unmarshal :=
  fun _ bs v => if bs = stringToBytes "\x7b\x7d" then some v else none

/-- Lookup function over a finite association list, mirroring the
mapToParser helper of the repository tests. -/
def lookupOf (m : List (String × String)) : String → Option String :=
  fun k => (m.find? (fun p => p.1 = k)).map (fun p => p.2)

/-! ### Derived notions used to state the claims -/

mutual
/-- No field reachable by the traversal carries a tag. Traversal reaches
struct fields and pointee structs of pointer fields, never slice elements. -/
def fieldsUntagged : TyFields → Bool
  | .nil => true
  | .cons _ tag ty rest => tag.isNone && tyUntagged ty && fieldsUntagged rest

def tyUntagged : Ty → Bool
  | .tStruct tfs => fieldsUntagged tfs
  | .tPtr e => tyUntagged e
  | _ => true
end

mutual
/-- The effect of a traversal with zero tags anywhere: every nil
pointer-to-struct field reachable by the traversal is replaced by a pointer
to a zero struct (recursively allocated in the same way); everything else is
untouched. -/
def allocVal : Ty → Value → Value
  | .tStruct tfs, v => .vStruct (allocFields tfs (structVals v))
  | .tPtr (.tStruct tfs), v =>
    .vPtr (some (.vStruct (allocFields tfs (structVals (ptrInit (.tStruct tfs) v).1))))
  | _, v => v

def allocFields : TyFields → Values → Values
  | .nil, vs => vs
  | .cons _ _ ty rest, vs =>
    .cons (allocVal ty (headVal ty vs)) (allocFields rest (tailVals vs))
end

mutual
/-- Names declared by tags, in traversal order: for each field, its own tag
name (when the tag parses and the field is tagged) followed by the names of
its reachable substructure, then the remaining fields. -/
def declNames : TyFields → List String
  | .nil => []
  | .cons _ tag ty rest =>
    (match parseTag tag with
     | .ok tg => if tg.Tagged then [tg.Name] else []
     | .error _ => []) ++ subNames ty ++ declNames rest

def subNames : Ty → List String
  | .tStruct tfs => declNames tfs
  | .tPtr (.tStruct tfs) => declNames tfs
  | _ => []
end

/-- The set of kinds the scalar coercer can assign from text, following the
spec: byte slices, text, signed and unsigned integers, floats, booleans. -/
def coercibleKind : Ty → Bool
  | .tSlice (.tUint .u8) => true
  | .tString => true
  | .tInt _ => true
  | .tUint _ => true
  | .tFloat _ => true
  | .tBool => true
  | _ => false

/-- Token outside the modifier vocabulary. -/
def invalidTok (t : String) : Bool :=
  !(decide (t = "base64") || decide (t = "json") || decide (t = "optional"))

/-! ### Model checks mirroring repository tests

These closed equalities reproduce behaviors pinned down by the repository
test suite (libconfig_test.go), confirming the embedding on concrete runs. -/

example : base64Decode "VkFMX0E=" = some [86, 65, 76, 95, 65] := rfl

example : base64Decode "i-am-not-base64" = none := rfl

example : splitComma "" = [""] := rfl

example : splitComma "A,b,," = ["A", "b", "", ""] := rfl

example : parseTag none = .ok {} := rfl

example : parseTag (some "VAR_A,optional") = .ok ⟨true, "VAR_A", true, false, false⟩ := rfl

example : parseTag (some "VAR_A,not-a-valid-option")
    = .error (.invalidTagOption "VAR_A,not-a-valid-option" "not-a-valid-option") := rfl

example : parseTag (some "") = .error (.missingNameTag "") := rfl

example : setValue (.tInt .i8) "VAR_A" (stringToBytes "500")
    = .error (.overflow (.kInt .i8) "VAR_A" "500") := rfl

example : setValue (.tInt .iDefault) "VAR_A" (stringToBytes "500") = .ok (.vInt 500) := rfl

example : setValue .tIface "VAR_A" (stringToBytes "false")
    = .error (.cannotSetKind .kInterface) := rfl

example :
    parseFields (lookupOf [("VAR_A", "VAL_A")]) jsonUnmarshalModel
      (.cons "VarA" (some "VAR_A") .tString .nil) (.cons (.vString "") .nil)
    = ⟨true, none, .cons (.vString "VAL_A") .nil, 0, ["VAR_A"]⟩ := rfl

example :
    (parseFields (lookupOf [("VAR_C", "10")]) jsonUnmarshalModel
      (.cons "Nested" none
        (.tPtr (.tStruct (.cons "VarC" (some "VAR_C") (.tInt .iDefault) .nil))) .nil)
      (.cons (.vPtr none) .nil)).vals
    = .cons (.vPtr (some (.vStruct (.cons (.vInt 10) .nil)))) .nil := rfl

example :
    (parseFields (lookupOf [("NESTED", "\x7b\x7d")]) jsonUnmarshalModel
      (.cons "Nested" (some "NESTED,json")
        (.tStruct (.cons "VarC" (some "VAR_C") (.tInt .iDefault) .nil)) .nil)
      (.cons (.vStruct (.cons (.vInt 0) .nil)) .nil)).err
    = some (.nestedTags "Nested" "NESTED") := rfl

/-! ### Helper lemmas -/

/-- Resolution always performs exactly one lookup, of the tag name. -/
theorem retrieve_lookups (lf : String → Option String) (uf : Unmarshal) (t : Ty)
    (v : Value) (tg : tagData) : (retrieve lf uf t v tg).lookups = [tg.Name] := by
  unfold retrieve
  cases lf tg.Name with
  | none => cases tg.Optional <;> simp
  | some value =>
    simp only
    split
    · rfl
    · split <;> rfl

/-! ### C7: absent names -/

/-- C7: for a tagged field whose name the lookup function does not know, the
resolver fails with VarNotFound carrying exactly that name when the field is
not optional, and succeeds when it is optional; in both cases the field value
is unchanged and no storage is allocated. -/
theorem c7_absent_name (lf : String → Option String) (uf : Unmarshal) (t : Ty)
    (v : Value) (tg : tagData) (h : lf tg.Name = none) :
    retrieve lf uf t v tg =
      ⟨if tg.Optional then none else some (.varNotFound tg.Name), v, 0, [tg.Name]⟩ := by
  unfold retrieve
  rw [h]
  cases tg.Optional <;> simp

theorem c7_absent_name_witness :
    retrieve (lookupOf []) jsonUnmarshalModel .tString (.vString "x")
        ⟨true, "VAR_A", false, false, false⟩
      = ⟨some (.varNotFound "VAR_A"), .vString "x", 0, ["VAR_A"]⟩ ∧
    retrieve (lookupOf []) jsonUnmarshalModel .tString (.vString "x")
        ⟨true, "VAR_B", true, false, false⟩
      = ⟨none, .vString "x", 0, ["VAR_B"]⟩ :=
  ⟨c7_absent_name _ _ _ _ _ rfl, c7_absent_name _ _ _ _ _ rfl⟩

/-! ### C9: non-coercible kinds -/

/-- C9: the scalar coercer fails with CannotSetKind, carrying the kind of the
target, exactly when the target kind is outside the coercible set (byte
slice, string, signed and unsigned integers, floats, bool), whatever the
value content; on coercible kinds CannotSetKind is never produced. -/
theorem c9_cannot_set_kind :
    (∀ t : Ty, ∀ key : String, ∀ bs : List Nat, coercibleKind t = false →
      setValue t key bs = .error (.cannotSetKind t.kind)) ∧
    (∀ t : Ty, ∀ key : String, ∀ bs : List Nat, coercibleKind t = true →
      ∀ k : Kind, setValue t key bs ≠ .error (.cannotSetKind k)) := by
  constructor
  · intro t key bs h
    match t with
    | .tIface | .tPtr _ | .tStruct _ => rfl
    | .tSlice e =>
      have he : e.kind ≠ Kind.kUint .u8 := by
        intro hk
        match e, hk with
        | .tUint .u8, _ => exact absurd h (by simp [coercibleKind])
      simp only [setValue]
      rw [if_neg he]
      rfl
    | .tString | .tInt _ | .tUint _ | .tFloat _ | .tBool =>
      simp [coercibleKind] at h
  · intro t key bs h k
    match t with
    | .tIface | .tPtr _ | .tStruct _ => simp [coercibleKind] at h
    | .tSlice e =>
      match e with
      | .tUint .u8 => simp [setValue, Ty.kind]
      | .tString | .tBool | .tIface | .tInt _ | .tSlice _ | .tPtr _ | .tStruct _
      | .tFloat _ =>
        simp [coercibleKind] at h
      | .tUint .uDefault | .tUint .u16 | .tUint .u32 | .tUint .u64 =>
        simp [coercibleKind] at h
    | .tString => simp [setValue]
    | .tInt ik =>
      simp only [setValue, setValueToInt]
      cases parseInt64 (bytesToString bs) <;> simp
      split <;> simp
    | .tUint uk =>
      simp only [setValue, setValueToUint]
      cases parseUint64 (bytesToString bs) <;> simp
      split <;> simp
    | .tFloat fk =>
      simp only [setValue, setValueToFloat]
      cases parseFloatModel (bytesToString bs) <;> simp
      split <;> simp
    | .tBool =>
      simp only [setValue, setValueToBool]
      cases parseBoolGo (bytesToString bs) <;> simp

theorem c9_cannot_set_kind_witness :
    setValue .tIface "VAR_A" (stringToBytes "false") = .error (.cannotSetKind .kInterface) ∧
    setValue .tString "VAR_A" (stringToBytes "false") ≠ .error (.cannotSetKind .kString) :=
  ⟨c9_cannot_set_kind.1 .tIface "VAR_A" (stringToBytes "false") rfl,
   c9_cannot_set_kind.2 .tString "VAR_A" (stringToBytes "false") rfl .kString⟩

/-! ### C5: parse before overflow -/

/-- C5: numeric coercion parses the text at maximum width first and only then
checks overflow against the declared width: text that fails to parse yields
CannotParseEnv and never reaches the overflow check, a parsed value is
checked against the declared width; in particular 500 overflows an 8-bit
signed field and succeeds at the default width with value 500. -/
theorem c5_parse_then_overflow :
    (∀ k : IntK, ∀ key : String, ∀ bs : List Nat,
      (parseInt64 (bytesToString bs) = none →
        setValue (.tInt k) key bs = .error (.cannotParseEnv (.kInt k) key (bytesToString bs))) ∧
      (∀ n : Int, parseInt64 (bytesToString bs) = some n →
        setValue (.tInt k) key bs =
          if overflowInt k n then .error (.overflow (.kInt k) key (bytesToString bs))
          else .ok (.vInt n))) ∧
    (∀ k : UintK, ∀ key : String, ∀ bs : List Nat,
      (parseUint64 (bytesToString bs) = none →
        setValue (.tUint k) key bs = .error (.cannotParseEnv (.kUint k) key (bytesToString bs))) ∧
      (∀ n : Nat, parseUint64 (bytesToString bs) = some n →
        setValue (.tUint k) key bs =
          if overflowUint k n then .error (.overflow (.kUint k) key (bytesToString bs))
          else .ok (.vUint n))) ∧
    (∀ k : FloatK, ∀ key : String, ∀ bs : List Nat,
      (parseFloatModel (bytesToString bs) = none →
        setValue (.tFloat k) key bs = .error (.cannotParseEnv (.kFloat k) key (bytesToString bs))) ∧
      (∀ q : Rat, parseFloatModel (bytesToString bs) = some q →
        setValue (.tFloat k) key bs =
          if overflowFloat k q then .error (.overflow (.kFloat k) key (bytesToString bs))
          else .ok (.vFloat q))) ∧
    (∀ key : String,
      setValue (.tInt .i8) key (stringToBytes "500") = .error (.overflow (.kInt .i8) key "500") ∧
      setValue (.tInt .iDefault) key (stringToBytes "500") = .ok (.vInt 500)) := by
  refine ⟨?_, ?_, ?_, ?_⟩
  · intro k key bs
    constructor
    · intro h
      simp [setValue, setValueToInt, h]
    · intro n h
      simp only [setValue, setValueToInt, h]
  · intro k key bs
    constructor
    · intro h
      simp [setValue, setValueToUint, h]
    · intro n h
      simp only [setValue, setValueToUint, h]
  · intro k key bs
    constructor
    · intro h
      simp [setValue, setValueToFloat, h]
    · intro q h
      simp only [setValue, setValueToFloat, h]
  · intro key
    exact ⟨rfl, rfl⟩

theorem c5_parse_then_overflow_witness :
    setValue (.tInt .i8) "VAR_A" (stringToBytes "500")
      = .error (.overflow (.kInt .i8) "VAR_A" "500") ∧
    setValue (.tInt .iDefault) "VAR_A" (stringToBytes "500") = .ok (.vInt 500) ∧
    setValue (.tInt .i8) "VAR_A" (stringToBytes "not-an-int")
      = .error (.cannotParseEnv (.kInt .i8) "VAR_A" "not-an-int") :=
  ⟨(c5_parse_then_overflow.2.2.2 "VAR_A").1,
   (c5_parse_then_overflow.2.2.2 "VAR_A").2,
   (c5_parse_then_overflow.1 .i8 "VAR_A" (stringToBytes "not-an-int")).1 rfl⟩

/-! ### C10: determinism -/

/-- C10: Get is deterministic: with the lookup function and deserializer given
as pure functions, equal initial records produce equal outcomes, both the
error result and the final record state. -/
theorem c10_deterministic (lf : String → Option String) (uf : Unmarshal) (t : Ty)
    (v₁ v₂ : Value) (h : v₁ = v₂) :
    GetModel lf uf t v₁ = GetModel lf uf t v₂ := by
  rw [h]

theorem c10_deterministic_witness :
    GetModel (lookupOf [("VAR_A", "VAL_A")]) jsonUnmarshalModel
        (.tPtr (.tStruct (.cons "VarA" (some "VAR_A") .tString .nil)))
        (.vPtr (some (.vStruct (.cons (.vString "") .nil))))
      = GetModel (lookupOf [("VAR_A", "VAL_A")]) jsonUnmarshalModel
        (.tPtr (.tStruct (.cons "VarA" (some "VAR_A") .tString .nil)))
        (.vPtr (some (.vStruct (.cons (.vString "") .nil)))) :=
  c10_deterministic _ _ _ _ _ rfl

/-! ### C2: allocation behavior of the resolver -/

/-- C2 counterexample: a pointer field that already has storage (a pointer to
the caller-supplied value 7), resolved on the scalar path with the found text
5, is given freshly allocated storage: the resolver performs one allocation
and the old pointee is discarded, refuting the claim that resolution never
allocates when the target already has storage. -/
theorem c2_counterexample :
    retrieve (lookupOf [("X", "5")]) jsonUnmarshalModel (.tPtr (.tInt .iDefault))
        (.vPtr (some (.vInt 7))) ⟨true, "X", false, false, false⟩
      = ⟨none, .vPtr (some (.vInt 5)), 1, ["X"]⟩ ∧
    (retrieve (lookupOf [("X", "5")]) jsonUnmarshalModel (.tPtr (.tInt .iDefault))
        (.vPtr (some (.vInt 7))) ⟨true, "X", false, false, false⟩).allocs ≠ 0 :=
  ⟨rfl, by decide⟩

/-- C2 amended: on the structured-decode path the resolver never allocates
when the pointer target already has storage; on the scalar path a pointer
target is always given freshly allocated storage, even when it already has
storage: the existing pointee is replaced, not written through, so the
result does not depend on it. -/
theorem c2_alloc_behavior (lf : String → Option String) (uf : Unmarshal) (e : Ty)
    (c : Value) (tg : tagData) (raw : String) (hfound : lf tg.Name = some raw) :
    (tg.JSON = true → (retrieve lf uf (.tPtr e) (.vPtr (some c)) tg).allocs = 0) ∧
    (tg.JSON = false → tg.Base64 = false →
      (retrieve lf uf (.tPtr e) (.vPtr (some c)) tg).allocs = 1 ∧
      ∀ c' : Value, retrieve lf uf (.tPtr e) (.vPtr (some c)) tg
        = retrieve lf uf (.tPtr e) (.vPtr (some c')) tg) := by
  constructor
  · intro hj
    unfold retrieve
    rw [hfound]
    simp only [hj, if_true]
    cases hb : tg.Base64 <;> simp only [hb, if_true, if_false, Bool.false_eq_true]
    · simp [jsonStage, ptrInit]
      split <;> rfl
    · cases hdec : base64Decode raw
      · simp [hdec]
      · simp only [hdec]
        simp [jsonStage, ptrInit]
        split <;> rfl
  · intro hj hb
    unfold retrieve
    rw [hfound]
    simp only [hj, hb, Bool.false_eq_true, if_false]
    constructor
    · simp only [scalarStage]
      split <;> rfl
    · intro c'
      simp only [scalarStage]

theorem c2_alloc_behavior_witness :
    (retrieve (lookupOf [("X", "\x7b\x7d")]) jsonUnmarshalModel (.tPtr (.tInt .iDefault))
        (.vPtr (some (.vInt 7))) ⟨true, "X", false, false, true⟩).allocs = 0 ∧
    (retrieve (lookupOf [("X", "5")]) jsonUnmarshalModel (.tPtr (.tInt .iDefault))
        (.vPtr (some (.vInt 7))) ⟨true, "X", false, false, false⟩).allocs = 1 :=
  ⟨(c2_alloc_behavior (lookupOf [("X", "\x7b\x7d")]) jsonUnmarshalModel (.tInt .iDefault)
      (.vInt 7) ⟨true, "X", false, false, true⟩ "\x7b\x7d" rfl).1 rfl,
   ((c2_alloc_behavior (lookupOf [("X", "5")]) jsonUnmarshalModel (.tInt .iDefault)
      (.vInt 7) ⟨true, "X", false, false, false⟩ "5" rfl).2 rfl rfl).1⟩

/-! ### C3: nested tags -/

/-- C3 counterexample: a tagged struct field with structured decode whose
substructure carries a tag of its own, fed an invalid structured payload,
fails with DecodeFailure from the resolution of the field itself, not with
NestedTags: the resolver runs before the sub-traversal, so the nested-tag
check is not reached when the payload is invalid. -/
theorem c3_counterexample :
    (parseFields (lookupOf [("NESTED", "i-am-not-json")]) jsonUnmarshalModel
        (.cons "Nested" (some "NESTED,json")
          (.tStruct (.cons "VarC" (some "VAR_C") (.tInt .iDefault) .nil)) .nil)
        (.cons (.vStruct (.cons (.vInt 0) .nil)) .nil)).err
      = some (.decodeFailure "NESTED" "i-am-not-json" "json") ∧
    (parseFields (lookupOf [("NESTED", "i-am-not-json")]) jsonUnmarshalModel
        (.cons "Nested" (some "NESTED,json")
          (.tStruct (.cons "VarC" (some "VAR_C") (.tInt .iDefault) .nil)) .nil)
        (.cons (.vStruct (.cons (.vInt 0) .nil)) .nil)).err
      ≠ some (.nestedTags "Nested" "NESTED") :=
  ⟨rfl, by decide⟩

/-- C3 amended: when a tagged struct-typed (or pointer-to-struct) field
resolves without error (for example a valid structured payload, or an
optional name that is absent) and the sub-traversal finds at least one tag,
the traversal fails with NestedTags carrying the field name and tag name,
and this is returned in preference to any error the sub-traversal produced;
when the resolution of the field itself fails, that resolution error is
returned first and the nested-tag check is never reached. -/
theorem c3_nested_tags_precedence (lf : String → Option String) (uf : Unmarshal)
    (name : String) (tagStr : Option String) (ty : Ty) (rest : TyFields)
    (v : Value) (tl : Values) (tg : tagData)
    (hptag : parseTag tagStr = .ok tg) (htag : tg.Tagged = true)
    (herr : (retrieve lf uf ty v tg).err = none)
    (hfound : (parseField lf uf ty (retrieve lf uf ty v tg).val).found = true) :
    (parseFields lf uf (.cons name tagStr ty rest) (.cons v tl)).err
      = some (.nestedTags name tg.Name) := by
  simp only [parseFields, headVal, tailVals, hptag, htag, if_true, herr, hfound,
    Bool.and_self, Bool.true_and]

theorem c3_nested_tags_precedence_witness :
    (parseFields (lookupOf [("VAR_C", "10")]) jsonUnmarshalModel
        (.cons "Nested" (some "NESTED,optional")
          (.tStruct (.cons "VarC" (some "VAR_C") (.tInt .iDefault) .nil)) .nil)
        (.cons (.vStruct (.cons (.vInt 0) .nil)) .nil)).err
      = some (.nestedTags "Nested" "NESTED") :=
  c3_nested_tags_precedence (lookupOf [("VAR_C", "10")]) jsonUnmarshalModel
    "Nested" (some "NESTED,optional")
    (.tStruct (.cons "VarC" (some "VAR_C") (.tInt .iDefault) .nil)) .nil
    (.vStruct (.cons (.vInt 0) .nil)) .nil
    ⟨true, "NESTED", true, false, false⟩ rfl rfl rfl rfl

/-! ### C8: tag extraction -/

theorem parseTagLoop_find_bad (tags : String) :
    ∀ toks : List String, ∀ r : tagData, ∀ bad : String,
    toks.find? invalidTok = some bad →
    parseTagLoop tags toks r = .error (.invalidTagOption tags bad) := by
  intro toks
  induction toks with
  | nil => intro r bad h; simp [List.find?] at h
  | cons t rest ih =>
    intro r bad h
    by_cases hb : t = "base64"
    · subst hb
      rw [List.find?_cons_of_neg _ (by simp [invalidTok])] at h
      rw [show parseTagLoop tags ("base64" :: rest) r
          = parseTagLoop tags rest { r with Base64 := true } from rfl]
      exact ih _ _ h
    · by_cases hj : t = "json"
      · subst hj
        rw [List.find?_cons_of_neg _ (by simp [invalidTok])] at h
        rw [show parseTagLoop tags ("json" :: rest) r
            = parseTagLoop tags rest { r with JSON := true } from rfl]
        exact ih _ _ h
      · by_cases ho : t = "optional"
        · subst ho
          rw [List.find?_cons_of_neg _ (by simp [invalidTok])] at h
          rw [show parseTagLoop tags ("optional" :: rest) r
              = parseTagLoop tags rest { r with Optional := true } from rfl]
          exact ih _ _ h
        · rw [List.find?_cons_of_pos _ (by simp [invalidTok, hb, hj, ho])] at h
          simp only [Option.some.injEq] at h
          subst h
          simp [parseTagLoop, hb, hj, ho]

theorem parseTagLoop_find_ok (tags : String) :
    ∀ toks : List String, ∀ r : tagData,
    toks.find? invalidTok = none →
    parseTagLoop tags toks r =
      .ok ⟨r.Tagged, r.Name, r.Optional || toks.contains "optional",
           r.Base64 || toks.contains "base64", r.JSON || toks.contains "json"⟩ := by
  intro toks
  induction toks with
  | nil => intro r _; simp [parseTagLoop, List.contains]
  | cons t rest ih =>
    intro r h
    by_cases hb : t = "base64"
    · subst hb
      rw [List.find?_cons_of_neg _ (by simp [invalidTok])] at h
      rw [show parseTagLoop tags ("base64" :: rest) r
          = parseTagLoop tags rest { r with Base64 := true } from rfl]
      rw [ih _ h]
      simp [List.contains_cons]
    · by_cases hj : t = "json"
      · subst hj
        rw [List.find?_cons_of_neg _ (by simp [invalidTok])] at h
        rw [show parseTagLoop tags ("json" :: rest) r
            = parseTagLoop tags rest { r with JSON := true } from rfl]
        rw [ih _ h]
        simp [List.contains_cons]
      · by_cases ho : t = "optional"
        · subst ho
          rw [List.find?_cons_of_neg _ (by simp [invalidTok])] at h
          rw [show parseTagLoop tags ("optional" :: rest) r
              = parseTagLoop tags rest { r with Optional := true } from rfl]
          rw [ih _ h]
          simp [List.contains_cons]
        · rw [List.find?_cons_of_pos _ (by simp [invalidTok, hb, hj, ho])] at h
          exact absurd h (by simp)

theorem strLengthZero (s : String) : s.length = 0 ↔ s = "" := by
  constructor
  · intro h
    cases s with
    | mk data =>
      cases data with
      | nil => rfl
      | cons c cs => simp [String.length] at h
  · intro h
    subst h
    rfl

/-- C8: tag extraction behaves as specified: a field without the tag key
yields untagged metadata with no error; an empty first comma token yields
MissingNameTag; a token after the name outside the modifier vocabulary
yields InvalidTagOption carrying the raw tag and the first offending token;
otherwise the name and exactly the declared modifier flags are returned. -/
theorem c8_parse_tag_spec :
    (parseTag none = .ok ⟨false, "", false, false, false⟩) ∧
    (∀ s : String, (splitComma s).headD "" = "" →
      parseTag (some s) = .error (.missingNameTag s)) ∧
    (∀ s bad : String, (splitComma s).headD "" ≠ "" →
      ((splitComma s).drop 1).find? invalidTok = some bad →
      parseTag (some s) = .error (.invalidTagOption s bad)) ∧
    (∀ s : String, (splitComma s).headD "" ≠ "" →
      ((splitComma s).drop 1).find? invalidTok = none →
      parseTag (some s) =
        .ok ⟨true, (splitComma s).headD "",
             ((splitComma s).drop 1).contains "optional",
             ((splitComma s).drop 1).contains "base64",
             ((splitComma s).drop 1).contains "json"⟩) := by
  refine ⟨rfl, ?_, ?_, ?_⟩
  · intro s h
    simp only [parseTag]
    rw [if_pos ((strLengthZero _).mpr h)]
  · intro s bad hname h
    simp only [parseTag]
    rw [if_neg (fun hl => hname ((strLengthZero _).mp hl))]
    exact parseTagLoop_find_bad s _ _ _ h
  · intro s hname h
    simp only [parseTag]
    rw [if_neg (fun hl => hname ((strLengthZero _).mp hl))]
    exact parseTagLoop_find_ok s _ _ h

theorem c8_parse_tag_spec_witness :
    parseTag none = .ok ⟨false, "", false, false, false⟩ ∧
    parseTag (some "") = .error (.missingNameTag "") ∧
    parseTag (some "VAR_A,not-a-valid-option")
      = .error (.invalidTagOption "VAR_A,not-a-valid-option" "not-a-valid-option") ∧
    parseTag (some "VAR_A,json,optional") = .ok ⟨true, "VAR_A", true, false, true⟩ :=
  ⟨c8_parse_tag_spec.1,
   c8_parse_tag_spec.2.1 "" rfl,
   c8_parse_tag_spec.2.2.1 "VAR_A,not-a-valid-option" "not-a-valid-option"
     (by decide) rfl,
   c8_parse_tag_spec.2.2.2 "VAR_A,json,optional" (by decide) rfl⟩

/-! ### C4: modifier order -/

/-- C4: reordering the modifier tokens after the name in an annotation does
not change tag extraction, hence not the resolution result; and the decode
pipeline order is fixed: when base64 and json are both declared, the binary
decode is applied to the raw value first (its failure is reported as a base64
DecodeFailure with the target untouched, whatever the deserializer would do),
and the structured decode stage receives the base64-decoded bytes. -/
theorem c4_modifier_order (s s' name : String) (mods mods' : List String)
    (hs : splitComma s = name :: mods) (hs' : splitComma s' = name :: mods')
    (hperm : mods.Perm mods')
    (hvalid : ∀ m ∈ mods, m = "optional" ∨ m = "base64" ∨ m = "json")
    (hname : name ≠ "") :
    parseTag (some s) = parseTag (some s') ∧
    ∀ lf : String → Option String, ∀ uf uf' : Unmarshal, ∀ t : Ty, ∀ v : Value,
    ∀ tg : tagData, ∀ raw : String, lf tg.Name = some raw →
      (tg.Base64 = true → base64Decode raw = none →
        retrieve lf uf t v tg = ⟨some (.decodeFailure tg.Name raw "base64"), v, 0, [tg.Name]⟩
        ∧ retrieve lf uf t v tg = retrieve lf uf' t v tg) ∧
      (∀ bs : List Nat, tg.Base64 = true → tg.JSON = true → base64Decode raw = some bs →
        retrieve lf uf t v tg =
          ⟨(jsonStage uf t v tg.Name raw bs).err, (jsonStage uf t v tg.Name raw bs).val,
           (jsonStage uf t v tg.Name raw bs).allocs, [tg.Name]⟩) := by
  constructor
  · have hvalid' : ∀ m ∈ mods', m = "optional" ∨ m = "base64" ∨ m = "json" :=
      fun m hm => hvalid m (hperm.mem_iff.mpr hm)
    have hfind : mods.find? invalidTok = none := by
      rw [List.find?_eq_none]
      intro x hx
      rcases hvalid x hx with h | h | h <;> simp [invalidTok, h]
    have hfind' : mods'.find? invalidTok = none := by
      rw [List.find?_eq_none]
      intro x hx
      rcases hvalid' x hx with h | h | h <;> simp [invalidTok, h]
    have hcon : ∀ x : String, mods.contains x = mods'.contains x := by
      intro x
      simp only [List.contains, List.elem_eq_mem]
      exact decide_eq_decide.mpr hperm.mem_iff
    simp only [parseTag, hs, hs', List.headD, List.drop]
    rw [if_neg (fun hl => hname ((strLengthZero _).mp hl)),
        if_neg (fun hl => hname ((strLengthZero _).mp hl))]
    rw [parseTagLoop_find_ok s _ _ hfind, parseTagLoop_find_ok s' _ _ hfind']
    simp [hcon]
    exact ⟨hperm.mem_iff, hperm.mem_iff, hperm.mem_iff⟩
  · intro lf uf uf' t v tg raw hlf
    constructor
    · intro hb64 hdec
      constructor <;> simp [retrieve, hlf, hb64, hdec]
    · intro bs hb64 hjson hdec
      simp [retrieve, hlf, hb64, hjson, hdec]

theorem c4_modifier_order_witness :
    parseTag (some "N,json,base64") = parseTag (some "N,base64,json") ∧
    retrieve (lookupOf [("N", "!!!")]) jsonUnmarshalModel .tString (.vString "")
        ⟨true, "N", false, true, true⟩
      = ⟨some (.decodeFailure "N" "!!!" "base64"), .vString "", 0, ["N"]⟩ := by
  have h := c4_modifier_order "N,json,base64" "N,base64,json" "N"
    ["json", "base64"] ["base64", "json"] rfl rfl
    (by decide) (by decide) (by decide)
  refine ⟨h.1, ?_⟩
  have h2 := (h.2 (lookupOf [("N", "!!!")]) jsonUnmarshalModel jsonUnmarshalModel
    .tString (.vString "") ⟨true, "N", false, true, true⟩ "!!!" rfl).1 rfl rfl
  exact h2.1

/-! ### C1: traversal with zero tags -/

theorem c1_aux : ∀ N : Nat, ∀ tfs : TyFields, ∀ vs : Values,
    ∀ lf : String → Option String, ∀ uf : Unmarshal,
    sizeOf tfs ≤ N → fieldsUntagged tfs = true →
    (parseFields lf uf tfs vs).found = false ∧
    (parseFields lf uf tfs vs).err = none ∧
    (parseFields lf uf tfs vs).vals = allocFields tfs vs ∧
    (parseFields lf uf tfs vs).lookups = [] := by
  intro N
  induction N with
  | zero =>
    intro tfs vs lf uf hN _
    exact absurd hN (by cases tfs <;> simp)
  | succ N ih =>
    intro tfs vs lf uf hN hU
    cases tfs with
    | nil => exact ⟨rfl, rfl, rfl, rfl⟩
    | cons name tag ty rest =>
      rw [fieldsUntagged, Bool.and_eq_true, Bool.and_eq_true] at hU
      obtain ⟨⟨hTag, hTy⟩, hRest⟩ := hU
      rw [Option.isNone_iff_eq_none] at hTag
      subst hTag
      simp only [TyFields.cons.sizeOf_spec, Nat.succ_le_succ_iff] at hN
      have hf : ∀ w : Value,
          (parseField lf uf ty w).found = false ∧
          (parseField lf uf ty w).err = none ∧
          (parseField lf uf ty w).val = allocVal ty w ∧
          (parseField lf uf ty w).lookups = [] := by
        intro w
        cases ty with
        | tStruct tfs' =>
          have hU' : fieldsUntagged tfs' = true := by simpa [tyUntagged] using hTy
          have hsz : sizeOf tfs' ≤ N := by
            simp only [Ty.tStruct.sizeOf_spec] at hN
            omega
          obtain ⟨h1, h2, h3, h4⟩ := ih tfs' (structVals w) lf uf hsz hU'
          exact ⟨h1, h2, by simp only [parseField, allocVal, h3], h4⟩
        | tPtr e =>
          cases e with
          | tStruct tfs' =>
            have hU' : fieldsUntagged tfs' = true := by simpa [tyUntagged] using hTy
            have hsz : sizeOf tfs' ≤ N := by
              simp only [Ty.tPtr.sizeOf_spec, Ty.tStruct.sizeOf_spec] at hN
              omega
            obtain ⟨h1, h2, h3, h4⟩ :=
              ih tfs' (structVals (ptrInit (.tStruct tfs') w).1) lf uf hsz hU'
            exact ⟨h1, h2, by simp only [parseField, allocVal, h3], h4⟩
          | tString => exact ⟨rfl, rfl, rfl, rfl⟩
          | tBool => exact ⟨rfl, rfl, rfl, rfl⟩
          | tIface => exact ⟨rfl, rfl, rfl, rfl⟩
          | tInt k => exact ⟨rfl, rfl, rfl, rfl⟩
          | tUint k => exact ⟨rfl, rfl, rfl, rfl⟩
          | tFloat k => exact ⟨rfl, rfl, rfl, rfl⟩
          | tSlice e' => exact ⟨rfl, rfl, rfl, rfl⟩
          | tPtr e' => exact ⟨rfl, rfl, rfl, rfl⟩
        | tString => exact ⟨rfl, rfl, rfl, rfl⟩
        | tBool => exact ⟨rfl, rfl, rfl, rfl⟩
        | tIface => exact ⟨rfl, rfl, rfl, rfl⟩
        | tInt k => exact ⟨rfl, rfl, rfl, rfl⟩
        | tUint k => exact ⟨rfl, rfl, rfl, rfl⟩
        | tFloat k => exact ⟨rfl, rfl, rfl, rfl⟩
        | tSlice e => exact ⟨rfl, rfl, rfl, rfl⟩
      have hszr : sizeOf rest ≤ N := by omega
      obtain ⟨hp1, hp2, hp3, hp4⟩ := hf (headVal ty vs)
      obtain ⟨hr1, hr2, hr3, hr4⟩ := ih rest (tailVals vs) lf uf hszr hRest
      refine ⟨?_, ?_, ?_, ?_⟩ <;>
        simp only [parseFields, allocFields, parseTag, Bool.false_and, Bool.false_or,
          if_false, hp1, hp2, hp3, hp4, hr1, hr2, hr3, hr4, List.nil_append,
          List.append_nil, Bool.false_eq_true]

/-- C1 amended: a traversal over a record with zero tagged fields (reachable
recursively through structs and pointers) succeeds, finds no tag, performs no
lookup, and changes nothing except that every nil pointer-to-struct field
reachable by the traversal is allocated: it ends up pointing at a zero-valued
struct whose own nil pointer-to-struct fields are allocated the same way. -/
theorem c1_untagged_run (lf : String → Option String) (uf : Unmarshal)
    (tfs : TyFields) (vs : Values) (hU : fieldsUntagged tfs = true) :
    (parseFields lf uf tfs vs).found = false ∧
    (parseFields lf uf tfs vs).err = none ∧
    (parseFields lf uf tfs vs).vals = allocFields tfs vs ∧
    (parseFields lf uf tfs vs).lookups = [] ∧
    GetModel lf uf (.tPtr (.tStruct tfs)) (.vPtr (some (.vStruct vs)))
      = (none, .vPtr (some (.vStruct (allocFields tfs vs)))) := by
  obtain ⟨h1, h2, h3, h4⟩ := c1_aux (sizeOf tfs) tfs vs lf uf le_rfl hU
  exact ⟨h1, h2, h3, h4, by simp only [GetModel, structVals, h2, h3]⟩

theorem c1_untagged_run_witness :
    (parseFields (lookupOf []) jsonUnmarshalModel
        (.cons "VarA" none .tString .nil) (.cons (.vString "VAL") .nil)).err = none ∧
    (parseFields (lookupOf []) jsonUnmarshalModel
        (.cons "VarA" none .tString .nil) (.cons (.vString "VAL") .nil)).vals
      = allocFields (.cons "VarA" none .tString .nil) (.cons (.vString "VAL") .nil) ∧
    allocFields (.cons "VarA" none .tString .nil) (.cons (.vString "VAL") .nil)
      = .cons (.vString "VAL") .nil :=
  ⟨(c1_untagged_run (lookupOf []) jsonUnmarshalModel
      (.cons "VarA" none .tString .nil) (.cons (.vString "VAL") .nil) rfl).2.1,
   (c1_untagged_run (lookupOf []) jsonUnmarshalModel
      (.cons "VarA" none .tString .nil) (.cons (.vString "VAL") .nil) rfl).2.2.1,
   rfl⟩

/-- C1 counterexample: a record with zero tagged fields whose only field is a
nil pointer to a struct. The run succeeds but the record is mutated: the nil
pointer field is allocated and afterwards points at a zero struct, so the
claim that nothing is mutated, including nil pointer-to-struct fields, fails. -/
theorem c1_counterexample :
    fieldsUntagged (.cons "P" none (.tPtr (.tStruct .nil)) .nil) = true ∧
    (GetModel (lookupOf []) jsonUnmarshalModel
        (.tPtr (.tStruct (.cons "P" none (.tPtr (.tStruct .nil)) .nil)))
        (.vPtr (some (.vStruct (.cons (.vPtr none) .nil))))).1 = none ∧
    (GetModel (lookupOf []) jsonUnmarshalModel
        (.tPtr (.tStruct (.cons "P" none (.tPtr (.tStruct .nil)) .nil)))
        (.vPtr (some (.vStruct (.cons (.vPtr none) .nil))))).2
      = .vPtr (some (.vStruct (.cons (.vPtr (some (.vStruct .nil))) .nil))) ∧
    (GetModel (lookupOf []) jsonUnmarshalModel
        (.tPtr (.tStruct (.cons "P" none (.tPtr (.tStruct .nil)) .nil)))
        (.vPtr (some (.vStruct (.cons (.vPtr none) .nil))))).2
      ≠ .vPtr (some (.vStruct (.cons (.vPtr none) .nil))) := by
  refine ⟨rfl, rfl, rfl, ?_⟩
  intro h
  injection h with h1
  injection h1 with h2
  injection h2 with h3
  injection h3 with h4 h5
  injection h4 with h6
  exact Option.noConfusion h6

/-! ### C6: lookup calls -/

/-- C6 counterexample: two fields tagged with the same name X make the
traversal call the lookup function twice with X during one successful run,
refuting the claim that no name is ever looked up twice. -/
theorem c6_counterexample :
    (parseFields (lookupOf [("X", "1")]) jsonUnmarshalModel
        (.cons "A" (some "X") (.tInt .iDefault) (.cons "B" (some "X") .tString .nil))
        (.cons (.vInt 0) (.cons (.vString "") .nil))).lookups = ["X", "X"] ∧
    (parseFields (lookupOf [("X", "1")]) jsonUnmarshalModel
        (.cons "A" (some "X") (.tInt .iDefault) (.cons "B" (some "X") .tString .nil))
        (.cons (.vInt 0) (.cons (.vString "") .nil))).err = none ∧
    ¬ (parseFields (lookupOf [("X", "1")]) jsonUnmarshalModel
        (.cons "A" (some "X") (.tInt .iDefault) (.cons "B" (some "X") .tString .nil))
        (.cons (.vInt 0) (.cons (.vString "") .nil))).lookups.Nodup :=
  ⟨rfl, rfl, by decide⟩

theorem c6_aux : ∀ N : Nat, ∀ tfs : TyFields, ∀ vs : Values,
    ∀ lf : String → Option String, ∀ uf : Unmarshal,
    sizeOf tfs ≤ N →
    (∃ t, (parseFields lf uf tfs vs).lookups ++ t = declNames tfs) ∧
    ((parseFields lf uf tfs vs).err = none →
      (parseFields lf uf tfs vs).lookups = declNames tfs) := by
  intro N
  induction N with
  | zero =>
    intro tfs vs lf uf hN
    exact absurd hN (by cases tfs <;> simp)
  | succ N ih =>
    intro tfs vs lf uf hN
    cases tfs with
    | nil => exact ⟨⟨[], rfl⟩, fun _ => rfl⟩
    | cons name tag ty rest =>
      simp only [TyFields.cons.sizeOf_spec, Nat.succ_le_succ_iff] at hN
      have hszr : sizeOf rest ≤ N := by omega
      have hfl : ∀ w : Value,
          (∃ t2, (parseField lf uf ty w).lookups ++ t2 = subNames ty) ∧
          ((parseField lf uf ty w).err = none →
            (parseField lf uf ty w).lookups = subNames ty) := by
        intro w
        cases ty with
        | tStruct tfs' =>
          have hsz : sizeOf tfs' ≤ N := by
            simp only [Ty.tStruct.sizeOf_spec] at hN
            omega
          exact ih tfs' (structVals w) lf uf hsz
        | tPtr e =>
          cases e with
          | tStruct tfs' =>
            have hsz : sizeOf tfs' ≤ N := by
              simp only [Ty.tPtr.sizeOf_spec, Ty.tStruct.sizeOf_spec] at hN
              omega
            exact ih tfs' (structVals (ptrInit (.tStruct tfs') w).1) lf uf hsz
          | tString => exact ⟨⟨[], rfl⟩, fun _ => rfl⟩
          | tBool => exact ⟨⟨[], rfl⟩, fun _ => rfl⟩
          | tIface => exact ⟨⟨[], rfl⟩, fun _ => rfl⟩
          | tInt k => exact ⟨⟨[], rfl⟩, fun _ => rfl⟩
          | tUint k => exact ⟨⟨[], rfl⟩, fun _ => rfl⟩
          | tFloat k => exact ⟨⟨[], rfl⟩, fun _ => rfl⟩
          | tSlice e' => exact ⟨⟨[], rfl⟩, fun _ => rfl⟩
          | tPtr e' => exact ⟨⟨[], rfl⟩, fun _ => rfl⟩
        | tString => exact ⟨⟨[], rfl⟩, fun _ => rfl⟩
        | tBool => exact ⟨⟨[], rfl⟩, fun _ => rfl⟩
        | tIface => exact ⟨⟨[], rfl⟩, fun _ => rfl⟩
        | tInt k => exact ⟨⟨[], rfl⟩, fun _ => rfl⟩
        | tUint k => exact ⟨⟨[], rfl⟩, fun _ => rfl⟩
        | tFloat k => exact ⟨⟨[], rfl⟩, fun _ => rfl⟩
        | tSlice e => exact ⟨⟨[], rfl⟩, fun _ => rfl⟩
      cases hpt : parseTag tag with
      | error e =>
        constructor
        · refine ⟨subNames ty ++ declNames rest, ?_⟩
          simp [parseFields, hpt, declNames]
        · intro hc
          simp only [parseFields, hpt] at hc
          exact Option.noConfusion hc
      | ok tg =>
        have hdecl : declNames (.cons name tag ty rest)
            = (if tg.Tagged then [tg.Name] else []) ++ subNames ty ++ declNames rest := by
          simp only [declNames, hpt]
        cases htg : tg.Tagged with
        | false =>
          obtain ⟨⟨t2, ht2⟩, heq2⟩ := hfl (headVal ty vs)
          cases hr2 : (parseField lf uf ty (headVal ty vs)).err with
          | some e2 =>
            constructor
            · refine ⟨t2 ++ declNames rest, ?_⟩
              simp only [parseFields, hpt, htg, Bool.false_and, Bool.false_eq_true,
                if_false, hr2, hdecl, List.nil_append, List.append_assoc]
              rw [← List.append_assoc, ht2]
            · intro hc
              simp only [parseFields, hpt, htg, Bool.false_and, Bool.false_eq_true,
                if_false, hr2] at hc
              exact Option.noConfusion hc
          | none =>
            obtain ⟨⟨t3, ht3⟩, heq3⟩ := ih rest (tailVals vs) lf uf hszr
            have hl2 := heq2 hr2
            constructor
            · refine ⟨t3, ?_⟩
              simp only [parseFields, hpt, htg, Bool.false_and, Bool.false_eq_true,
                if_false, hr2, hdecl, hl2, List.nil_append, List.append_assoc, ht3]
            · intro hc
              simp only [parseFields, hpt, htg, Bool.false_and, Bool.false_eq_true,
                if_false, hr2] at hc
              simp only [parseFields, hpt, htg, Bool.false_and, Bool.false_eq_true,
                if_false, hr2, hdecl, hl2, List.nil_append, heq3 hc]
        | true =>
          cases hr1 : (retrieve lf uf ty (headVal ty vs) tg).err with
          | some e1 =>
            constructor
            · refine ⟨subNames ty ++ declNames rest, ?_⟩
              simp only [parseFields, hpt, htg, if_true, hr1, hdecl,
                retrieve_lookups, List.append_assoc]
            · intro hc
              simp only [parseFields, hpt, htg, if_true, hr1] at hc
              exact Option.noConfusion hc
          | none =>
            obtain ⟨⟨t2, ht2⟩, heq2⟩ := hfl ((retrieve lf uf ty (headVal ty vs) tg).val)
            cases hnf : (parseField lf uf ty ((retrieve lf uf ty (headVal ty vs) tg).val)).found with
            | true =>
              constructor
              · refine ⟨t2 ++ declNames rest, ?_⟩
                simp only [parseFields, hpt, htg, if_true, hr1, hnf, Bool.true_and,
                  hdecl, retrieve_lookups, List.append_assoc]
                rw [← ht2]
                simp [List.append_assoc]
              · intro hc
                simp only [parseFields, hpt, htg, if_true, hr1, hnf, Bool.true_and] at hc
                exact Option.noConfusion hc
            | false =>
              cases hr2 : (parseField lf uf ty ((retrieve lf uf ty (headVal ty vs) tg).val)).err with
              | some e2 =>
                constructor
                · refine ⟨t2 ++ declNames rest, ?_⟩
                  simp only [parseFields, hpt, htg, if_true, hr1, hnf, Bool.true_and,
                    Bool.false_eq_true, if_false, hr2, hdecl, retrieve_lookups,
                    List.append_assoc]
                  rw [← ht2]
                  simp [List.append_assoc]
                · intro hc
                  simp only [parseFields, hpt, htg, if_true, hr1, hnf, Bool.true_and,
                    Bool.false_eq_true, if_false, hr2] at hc
                  exact Option.noConfusion hc
              | none =>
                obtain ⟨⟨t3, ht3⟩, heq3⟩ := ih rest (tailVals vs) lf uf hszr
                have hl2 := heq2 hr2
                constructor
                · refine ⟨t3, ?_⟩
                  simp only [parseFields, hpt, htg, if_true, hr1, hnf, Bool.true_and,
                    Bool.false_eq_true, if_false, hr2, hdecl, hl2, retrieve_lookups,
                    List.append_assoc, ht3]
                · intro hc
                  simp only [parseFields, hpt, htg, if_true, hr1, hnf, Bool.true_and,
                    Bool.false_eq_true, if_false, hr2] at hc
                  simp only [parseFields, hpt, htg, if_true, hr1, hnf, Bool.true_and,
                    Bool.false_eq_true, if_false, hr2, hdecl, hl2, retrieve_lookups,
                    List.append_assoc, heq3 hc]

/-- C6 amended: during one run the engine calls the lookup function exactly
once per tagged field it reaches before the first error: the sequence of
lookup calls is an initial segment of the tag names declared by the record in
traversal order (and equals it on error-free runs, by the auxiliary lemma).
A name declared by two different fields is therefore looked up once per
occurrence, which can be twice for the same name. -/
theorem c6_lookup_calls (lf : String → Option String) (uf : Unmarshal)
    (tfs : TyFields) (vs : Values) :
    ∃ t, (parseFields lf uf tfs vs).lookups ++ t = declNames tfs :=
  (c6_aux (sizeOf tfs) tfs vs lf uf le_rfl).1

end Libconfig
